import Mathlib

/-!
Shallow embedding of the GenericGenevaClock firmware core:
`GenericClockBoard::Step` (stepper phase sequencer with speed profiles) and
`GenevaClockMechanics::{UpdateClock, Home}` (time-to-position mapping and the
three-phase homing procedure).

Modelling conventions:
* C++ `int32_t` arithmetic is modelled with `Int`, using `Int.tdiv` and
  `Int.tmod` (truncation toward zero, the C++ semantics of `/` and `%`).
  All intermediate signed values in the embedded code paths stay far below
  `2 ^ 31` for the configurations considered, so no wrap-around is modelled.
* `uint32_t` quantities are modelled with `Nat`; an explicit `% 2 ^ 32` is
  inserted where a C++ computation could plausibly wrap (the microsecond
  product in the constructor).
* The physical rotor is modelled by a shadow field `motorPos : Int` that
  advances by one step per loop iteration of `Step`, signed by the commanded
  direction (positive = clockwise).  The polarity-corrected home sensor
  (`IsHome()`) is modelled as a Boolean function of that physical position.
* Busy-wait delays are recorded (as the list of per-iteration microsecond
  delay totals issued by `Step`) rather than executed.
-/

namespace GenevaClock

/-- `StepperSpeed_t` from GenericClockBoard.h. -/
inductive StepperSpeed_t where
  | StepSlow
  | StepAuto
  | StepFast
deriving DecidableEq

/-- `StatusCode_t` from GenevaClockMechanics.h. -/
inductive StatusCode_t where
  | StatusSuccess
  | StatusHomePhase1Error
  | StatusHomePhase2Error
  | StatusHomePhase3Error
deriving DecidableEq

/-- Stepper pin assignments (GenericClockBoard.h lines 186-189). -/
def PHASE_1_PIN : Nat := 19

def PHASE_2_PIN : Nat := 16

def PHASE_3_PIN : Nat := 17

def PHASE_4_PIN : Nat := 21

/-- `StepperPins` (GenericClockBoard.cpp line 41). -/
def StepperPins : List Nat := [PHASE_1_PIN, PHASE_2_PIN, PHASE_3_PIN, PHASE_4_PIN]

/-- `StepperPinsReversed` (GenericClockBoard.cpp line 43). -/
def StepperPinsReversed : List Nat := [PHASE_4_PIN, PHASE_3_PIN, PHASE_2_PIN, PHASE_1_PIN]

def STEP_CW : Int := 1

def STEP_CCW : Int := -1

def MINUTES_PER_HOUR : Nat := 60

def HOURS_PER_REV : Nat := 3

def HOURS_PER_CYCLE : Nat := 12

def MINUTES_PER_CYCLE : Int := (MINUTES_PER_HOUR * HOURS_PER_CYCLE : Nat)

def GEAR_RATIO : Nat := 32 / 8

def US_PER_SEC : Nat := 1000000

/-- Immutable driver configuration computed by the `GenericClockBoard`
constructor. -/
structure BoardConfig where
  m_NumStepperPhases : Nat
  m_StepperRapidDelayUs : Nat
  m_StepperClearMask : Nat
  m_StepperSequence : List Nat
  m_InvertHome : Bool
deriving DecidableEq

/-- Mutable driver state: the stepper phase index, the GPIO output bank, and
the physical rotor position shadow. -/
structure BoardState where
  m_CurrentStepperPhase : Nat
  gpioOut : Nat
  motorPos : Int
deriving DecidableEq

/-- Complement of a 32-bit mask: `GPIO.out_w1tc = m` has the effect
`out := out &&& compl32 m`. -/
def compl32 (m : Nat) : Nat := (2 ^ 32 - 1) ^^^ m % 2 ^ 32

/-- Total microseconds of delay issued in iteration `j` of the loop in
`GenericClockBoard::Step` (GenericClockBoard.cpp lines 171-191) for a move of
`n = |steps|` steps: one unconditional rapid delay, plus the speed-dependent
extras. -/
def stepDelayUs (cfg : BoardConfig) (speed : StepperSpeed_t) (j n : Nat) : Nat :=
  cfg.m_StepperRapidDelayUs +
    (if speed = StepperSpeed_t.StepSlow then cfg.m_StepperRapidDelayUs * 4
     else if speed = StepperSpeed_t.StepAuto then
       (if j < 20 then cfg.m_StepperRapidDelayUs else 0) +
       (if j < 10 then cfg.m_StepperRapidDelayUs else 0) +
       (if j < 5 then cfg.m_StepperRapidDelayUs else 0) +
       (if n - j < 20 then cfg.m_StepperRapidDelayUs else 0) +
       (if n - j < 10 then cfg.m_StepperRapidDelayUs else 0) +
       (if n - j < 5 then cfg.m_StepperRapidDelayUs else 0)
     else 0)

/-- One iteration of the stepping loop (GenericClockBoard.cpp lines 163-195,
delays excluded): advance the phase index, assert its bit pattern
(`GPIO.out_w1ts`), then deassert all stepper bits (`GPIO.out_w1tc`).
`dir` is the physical direction (+1 CW, -1 CCW) of the commanded move. -/
def stepIter (cfg : BoardConfig) (delta : Nat) (dir : Int) (st : BoardState) : BoardState :=
  let phase := (st.m_CurrentStepperPhase + delta) % cfg.m_NumStepperPhases
  { m_CurrentStepperPhase := phase
    gpioOut := (st.gpioOut ||| cfg.m_StepperSequence.getD phase 0) &&&
      compl32 cfg.m_StepperClearMask
    motorPos := st.motorPos + dir }

/-- The loop of `GenericClockBoard::Step`: `k` iterations remain, `j` is the
current iteration index, `n = |steps|`.  Returns the final state and the list
of per-iteration delay totals. -/
def stepLoop (cfg : BoardConfig) (speed : StepperSpeed_t) (delta : Nat) (dir : Int)
    (n : Nat) : Nat → Nat → BoardState → BoardState × List Nat
  | 0, _, st => (st, [])
  | k + 1, j, st =>
    let r := stepLoop cfg speed delta dir n k (j + 1) (stepIter cfg delta dir st)
    (r.1, stepDelayUs cfg speed j n :: r.2)

/-- `GenericClockBoard::Step` (GenericClockBoard.cpp lines 147-197).  Returns
the updated driver state together with the list of per-iteration delay totals
(empty for `steps = 0`, which just deasserts all stepper outputs and
returns). -/
def Step (cfg : BoardConfig) (st : BoardState) (steps : Int) (speed : StepperSpeed_t) :
    BoardState × List Nat :=
  if steps = 0 then
    ({ st with gpioOut := st.gpioOut &&& compl32 cfg.m_StepperClearMask }, [])
  else
    let delta : Nat := if steps > 0 then 1 else cfg.m_NumStepperPhases - 1
    let dir : Int := if steps > 0 then 1 else -1
    let absSteps := steps.natAbs
    stepLoop cfg speed delta dir absSteps absSteps 0 st

/-- The pin bit pattern `PIN_BP(p) = 1UL << m_pStepperPins[p]`
(GenericClockBoard.cpp line 105). -/
def PIN_BP (pins : List Nat) (p : Nat) : Nat := 2 ^ pins.getD p 0

/-- The `GenericClockBoard` constructor (GenericClockBoard.cpp lines 79-128).
Entries of `m_StepperSequence` not written in full-step mode (indices 4-7)
are never read (the phase index stays below 4) and are modelled as 0. -/
def mkGenericClockBoard (rapidSecondsPerRev fullStepsPerRev : Nat)
    (stepperPinsReversed stepperHalfStepping homeNormallyOpen : Bool) : BoardConfig :=
  let pins := if stepperPinsReversed then StepperPinsReversed else StepperPins
  let numPhases := if stepperHalfStepping then 8 else 4
  let stepsPerRev := fullStepsPerRev * (if stepperHalfStepping then 2 else 1)
  let bp := PIN_BP pins
  { m_NumStepperPhases := numPhases
    m_StepperRapidDelayUs := US_PER_SEC * rapidSecondsPerRev % 2 ^ 32 / stepsPerRev
    m_StepperClearMask := bp 0 ||| bp 1 ||| bp 2 ||| bp 3
    m_StepperSequence :=
      if numPhases = 4 then [bp 0, bp 1, bp 2, bp 3, 0, 0, 0, 0]
      else [bp 0, bp 0 ||| bp 1, bp 1, bp 1 ||| bp 2, bp 2, bp 2 ||| bp 3,
            bp 3, bp 3 ||| bp 0]
    m_InvertHome := homeNormallyOpen }

/-- Driver state right after the constructor: phase index 0, all modelled
output bits driven LOW; `pos0` is the unknown physical rotor position at
power-up. -/
def initBoardState (pos0 : Int) : BoardState :=
  { m_CurrentStepperPhase := 0, gpioOut := 0, motorPos := pos0 }

/-- Immutable clock-mechanics configuration (the derived step constants of
`GenevaClockMechanics`). -/
structure MechConfig where
  board : BoardConfig
  m_StepsPerHour : Nat
  m_StepsPerCycle : Int
deriving DecidableEq

/-- Clock-mechanics state: the driver state plus the stored position/time. -/
structure MechState where
  board : BoardState
  m_LastStepperPos : Int
  m_LastMinutes : Int
deriving DecidableEq

/-- The `GenevaClockMechanics` constructor (GenevaClockMechanics.cpp lines
41-65): board construction, plus the derived `m_StepsPerHour` and
`m_StepsPerCycle`. -/
def mkGenevaClockMechanics (rapidSecondsPerRev fullStepsPerRev : Nat)
    (stepperPinsReversed stepperHalfStepping homeNormallyOpen : Bool) (pos0 : Int) :
    MechConfig × MechState :=
  let board := mkGenericClockBoard rapidSecondsPerRev fullStepsPerRev
      stepperPinsReversed stepperHalfStepping homeNormallyOpen
  let stepsPerRev := fullStepsPerRev * (if stepperHalfStepping then 2 else 1)
  ({ board := board
     m_StepsPerHour := stepsPerRev * GEAR_RATIO / HOURS_PER_REV
     m_StepsPerCycle := (stepsPerRev * GEAR_RATIO * (HOURS_PER_CYCLE / HOURS_PER_REV) : Nat) },
   { board := initBoardState pos0, m_LastStepperPos := 0, m_LastMinutes := 0 })

/-- `newMotorPos` as computed by `UpdateClock` (GenevaClockMechanics.cpp lines
97-98): C++ signed integer division. -/
def newMotorPosOf (cfg : MechConfig) (newTimeInMinutes : Int) : Int :=
  Int.tdiv (newTimeInMinutes * cfg.m_StepsPerCycle) MINUTES_PER_CYCLE

/-- The shortest-path normalization of `UpdateClock` (GenevaClockMechanics.cpp
lines 106-113), comparisons and C++ integer division exactly as written. -/
def normalizeDelta (cfg : MechConfig) (delta : Int) : Int :=
  if delta > Int.tdiv cfg.m_StepsPerCycle 2 then delta - cfg.m_StepsPerCycle
  else if delta < Int.tdiv (-cfg.m_StepsPerCycle) 2 then delta + cfg.m_StepsPerCycle
  else delta

/-- `GenevaClockMechanics::UpdateClock` (GenevaClockMechanics.cpp lines
82-124) for a time with hour field `tm_hour` and minute field `tm_min`
(nonnegative, as produced by `localtime`).  The second component records the
argument of the `Step` call when one is issued, `none` when the method
returns without calling `Step`. -/
def UpdateClock (cfg : MechConfig) (tm_hour tm_min : Nat) (st : MechState) :
    MechState × Option Int :=
  let newTimeInMinutes : Int := (tm_hour % HOURS_PER_CYCLE * MINUTES_PER_HOUR + tm_min : Nat)
  if newTimeInMinutes = st.m_LastMinutes then (st, none)
  else
    let newMotorPos := newMotorPosOf cfg newTimeInMinutes
    let deltaSteps := normalizeDelta cfg (newMotorPos - st.m_LastStepperPos)
    ({ board := (Step cfg.board st.board deltaSteps StepperSpeed_t.StepAuto).1
       m_LastStepperPos := Int.tmod (st.m_LastStepperPos + deltaSteps) cfg.m_StepsPerCycle
       m_LastMinutes := newTimeInMinutes }, some deltaSteps)

/-- One homing-phase loop, `for (i = 0; cond && i < fuel; i++) Step(stp, speed)`:
while `cond` holds on the current state and budget remains, issue a one-step
`Step` call.  Returns the final driver state and the C++ loop counter `i` at
loop exit. -/
def homeLoop (cfg : BoardConfig) (cond : BoardState → Bool) (stp : Int)
    (speed : StepperSpeed_t) : Nat → BoardState → BoardState × Nat
  | 0, st => (st, 0)
  | fuel + 1, st =>
    if cond st then
      let r := homeLoop cfg cond stp speed fuel (Step cfg st stp speed).1
      (r.1, r.2 + 1)
    else (st, 0)

/-- `GenevaClockMechanics::Home` (GenevaClockMechanics.cpp lines 148-198),
with the polarity-corrected home sensor `IsHome()` modelled as the Boolean
function `isHome` of the physical rotor position. -/
def Home (cfg : MechConfig) (isHome : Int → Bool) (st : MechState) :
    StatusCode_t × MechState :=
  let MAX_STEPS := cfg.m_StepsPerCycle.toNat + cfg.m_StepsPerHour
  let r1 := homeLoop cfg.board (fun b => ! isHome b.motorPos) STEP_CW
      StepperSpeed_t.StepFast MAX_STEPS st.board
  if MAX_STEPS ≤ r1.2 then (StatusCode_t.StatusHomePhase1Error, { st with board := r1.1 })
  else
    let r2 := homeLoop cfg.board (fun b => isHome b.motorPos) STEP_CCW
        StepperSpeed_t.StepFast cfg.m_StepsPerHour r1.1
    if cfg.m_StepsPerHour ≤ r2.2 then
      (StatusCode_t.StatusHomePhase2Error, { st with board := r2.1 })
    else
      let r3 := homeLoop cfg.board (fun b => ! isHome b.motorPos) STEP_CW
          StepperSpeed_t.StepSlow cfg.m_StepsPerHour r2.1
      if cfg.m_StepsPerHour ≤ r3.2 then
        (StatusCode_t.StatusHomePhase3Error, { st with board := r3.1 })
      else
        (StatusCode_t.StatusSuccess,
         { board := r3.1, m_LastStepperPos := 0, m_LastMinutes := 0 })

/-- A simulated home sensor that is active exactly on a contiguous arc of
`width` steps starting at physical position `a` and repeating every `cycle`
steps (the physical sensor zone of the clock). -/
def intervalSensor (a : Int) (width : Nat) (cycle : Int) : Int → Bool :=
  fun p => decide ((p - a) % cycle < (width : Int))

/-- The per-iteration phase-index update performed by the stepping loop
(GenericClockBoard.cpp line 166). -/
def phaseStep (m delta p : Nat) : Nat := (p + delta) % m

/-- A sample board configuration: the values used by the repository for the
28BYJ-48 stepper (8 s/rev, 2048 full steps, half stepping, N.O. switch). -/
def sampleBoard : BoardConfig := mkGenericClockBoard 8 2048 false true true

/-- A small mechanics configuration used for concrete witnesses (tiny step
budgets keep the homing loops short). -/
def smallCfg : MechConfig :=
  { board := sampleBoard, m_StepsPerHour := 2, m_StepsPerCycle := 4 }

/-- A concrete starting state with nonzero position fields, used for concrete
witnesses. -/
def smallSt : MechState :=
  { board := initBoardState 0, m_LastStepperPos := 7, m_LastMinutes := 5 }

/-- A sample board configuration with full stepping (4 phases). -/
def sampleBoardFull : BoardConfig := mkGenericClockBoard 8 2048 false false true

/-- Another small mechanics configuration (cycle 10, hour 4) for homing
witnesses. -/
def calCfg : MechConfig :=
  { board := sampleBoard, m_StepsPerHour := 4, m_StepsPerCycle := 10 }

/-- A starting state with arbitrary phase index and physical position, for
homing witnesses. -/
def calSt : MechState :=
  { board := { m_CurrentStepperPhase := 5, gpioOut := 3, motorPos := -7 },
    m_LastStepperPos := 9, m_LastMinutes := 8 }

/-- A driver state with stray (non-stepper) output bits set, for the
`Step(0, _)` witness. -/
def straySt : BoardState :=
  { m_CurrentStepperPhase := 3, gpioOut := 2 ^ 19 ||| 2 ^ 5, motorPos := 11 }

/-- A driver state at phase index 3, for the reversibility witness. -/
def phase3St : BoardState :=
  { m_CurrentStepperPhase := 3, gpioOut := 0, motorPos := 0 }

/-- The repository's 28BYJ-48 construction (8 s/rev, 2048 full steps, half
stepping, N.O. home switch), rotor starting at physical position 0. -/
def byjPair : MechConfig × MechState := mkGenevaClockMechanics 8 2048 false true true 0

/-- The constructed 28BYJ-48 mechanics configuration (steps_per_cycle 65536,
steps_per_hour 5461). -/
def byjCfg : MechConfig := byjPair.1

/-- The state right after construction. -/
def byjSt0 : MechState := byjPair.2

/-- A one-step-wide home-sensor zone at physical position 0 (mod the cycle). -/
def byjSensor : Int → Bool := intervalSensor 0 1 byjCfg.m_StepsPerCycle

/-- The state after a successful `Home` from the constructed state. -/
def byjHomed : MechState := (Home byjCfg byjSensor byjSt0).2

/-- First update of the C1/C2 trace: 06:01 after homing. -/
def byjU1 : MechState × Option Int := UpdateClock byjCfg 6 1 byjHomed

/-- Second update of the C1 trace: 00:02. -/
def byjU2 : MechState × Option Int := UpdateClock byjCfg 0 2 byjU1.1

/-- Third update of the C1 trace: 11:59. -/
def byjU3 : MechState × Option Int := UpdateClock byjCfg 11 59 byjU2.1

/-- The C9 scenario's first call: update(00:00) from the constructed state. -/
def byjU0 : MechState × Option Int := UpdateClock byjCfg 0 0 byjSt0

/-- The C9 scenario's second call: update(06:01). -/
def byjU01 : MechState × Option Int := UpdateClock byjCfg 6 1 byjU0.1

/-! ## Loop characterization lemmas -/

theorem stepLoop_fst_motorPos (cfg : BoardConfig) (speed : StepperSpeed_t) (delta : Nat)
    (dir : Int) (n : Nat) :
    ∀ (k j : Nat) (st : BoardState),
      ((stepLoop cfg speed delta dir n k j st).1).motorPos = st.motorPos + k * dir := by
  intro k
  induction k with
  | zero => intro j st; simp [stepLoop]
  | succ k ih =>
    intro j st
    simp only [stepLoop]
    rw [ih]
    simp [stepIter]
    ring

theorem stepLoop_fst_phase (cfg : BoardConfig) (speed : StepperSpeed_t) (delta : Nat)
    (dir : Int) (n : Nat) :
    ∀ (k j : Nat) (st : BoardState),
      ((stepLoop cfg speed delta dir n k j st).1).m_CurrentStepperPhase =
        (phaseStep cfg.m_NumStepperPhases delta)^[k] st.m_CurrentStepperPhase := by
  intro k
  induction k with
  | zero => intro j st; simp [stepLoop]
  | succ k ih =>
    intro j st
    simp only [stepLoop]
    rw [ih, Function.iterate_succ_apply]
    rfl

theorem stepLoop_snd_length (cfg : BoardConfig) (speed : StepperSpeed_t) (delta : Nat)
    (dir : Int) (n : Nat) :
    ∀ (k j : Nat) (st : BoardState), (stepLoop cfg speed delta dir n k j st).2.length = k := by
  intro k
  induction k with
  | zero => intro j st; simp [stepLoop]
  | succ k ih => intro j st; simp [stepLoop, ih]

theorem stepLoop_snd_getD (cfg : BoardConfig) (speed : StepperSpeed_t) (delta : Nat)
    (dir : Int) (n : Nat) :
    ∀ (k i j : Nat) (st : BoardState), i < k →
      (stepLoop cfg speed delta dir n k j st).2.getD i 0 = stepDelayUs cfg speed (j + i) n := by
  intro k
  induction k with
  | zero => intro i j st h; omega
  | succ k ih =>
    intro i j st h
    cases i with
    | zero => simp [stepLoop]
    | succ i =>
      simp only [stepLoop, List.getD_cons_succ]
      rw [ih i (j + 1) _ (by omega)]
      congr 1
      omega

theorem phaseStep_iterate (m delta p k : Nat) (hk : 0 < k) :
    (phaseStep m delta)^[k] p = (p + k * delta) % m := by
  induction k with
  | zero => omega
  | succ k ih =>
    rcases Nat.eq_zero_or_pos k with h0 | hpos
    · subst h0; simp [phaseStep]
    · rw [Function.iterate_succ_apply', ih hpos]
      simp only [phaseStep]
      rw [Nat.mod_add_mod]
      congr 1
      ring

/-! ## Step characterization lemmas -/

theorem Step_fst_motorPos (cfg : BoardConfig) (st : BoardState) (steps : Int)
    (speed : StepperSpeed_t) :
    (Step cfg st steps speed).1.motorPos = st.motorPos + steps := by
  unfold Step
  by_cases h0 : steps = 0
  · simp [h0]
  · rw [if_neg h0, stepLoop_fst_motorPos]
    by_cases hpos : steps > 0
    · rw [if_pos hpos, Int.natAbs_of_nonneg (le_of_lt hpos)]
      ring
    · rw [if_neg hpos, Int.ofNat_natAbs_of_nonpos (by omega)]
      ring

theorem Step_fst_phase (cfg : BoardConfig) (st : BoardState) (steps : Int)
    (speed : StepperSpeed_t) (hs : steps ≠ 0) :
    (Step cfg st steps speed).1.m_CurrentStepperPhase =
      (st.m_CurrentStepperPhase +
        steps.natAbs * (if 0 < steps then 1 else cfg.m_NumStepperPhases - 1)) %
        cfg.m_NumStepperPhases := by
  unfold Step
  rw [if_neg hs, stepLoop_fst_phase,
    phaseStep_iterate _ _ _ _ (Int.natAbs_pos.mpr hs)]

theorem iterate_Step_motorPos (cfg : BoardConfig) (stp : Int) (speed : StepperSpeed_t) :
    ∀ (j : Nat) (st : BoardState),
      ((fun b => (Step cfg b stp speed).1)^[j] st).motorPos = st.motorPos + j * stp := by
  intro j
  induction j with
  | zero => intro st; simp
  | succ j ih =>
    intro st
    rw [Function.iterate_succ_apply, ih, Step_fst_motorPos]
    push_cast
    ring

/-! ## homeLoop characterization lemmas -/

theorem homeLoop_found (cfg : BoardConfig) (cond : BoardState → Bool) (stp : Int)
    (speed : StepperSpeed_t) :
    ∀ (k fuel : Nat) (st : BoardState), k < fuel →
      (∀ j < k, cond ((fun b => (Step cfg b stp speed).1)^[j] st) = true) →
      cond ((fun b => (Step cfg b stp speed).1)^[k] st) = false →
      homeLoop cfg cond stp speed fuel st =
        ((fun b => (Step cfg b stp speed).1)^[k] st, k) := by
  intro k
  induction k with
  | zero =>
    intro fuel st hfuel _ hstop
    cases fuel with
    | zero => omega
    | succ f =>
      rw [Function.iterate_zero_apply] at hstop ⊢
      simp [homeLoop, hstop]
  | succ k ih =>
    intro fuel st hfuel hcont hstop
    cases fuel with
    | zero => omega
    | succ f =>
      have h0 : cond st = true := by
        have := hcont 0 (Nat.succ_pos k)
        rwa [Function.iterate_zero_apply] at this
      simp only [homeLoop, h0, if_true]
      rw [ih f _ (by omega) ?_ ?_]
      · rw [Function.iterate_succ_apply]
      · intro j hj
        rw [← Function.iterate_succ_apply]
        exact hcont (j + 1) (by omega)
      · rw [← Function.iterate_succ_apply]
        exact hstop

theorem homeLoop_exhaust (cfg : BoardConfig) (cond : BoardState → Bool) (stp : Int)
    (speed : StepperSpeed_t) :
    ∀ (fuel : Nat) (st : BoardState),
      (∀ j < fuel, cond ((fun b => (Step cfg b stp speed).1)^[j] st) = true) →
      homeLoop cfg cond stp speed fuel st =
        ((fun b => (Step cfg b stp speed).1)^[fuel] st, fuel) := by
  intro fuel
  induction fuel with
  | zero => intro st _; simp [homeLoop]
  | succ f ih =>
    intro st hcont
    have h0 : cond st = true := by
      have := hcont 0 (Nat.succ_pos f)
      rwa [Function.iterate_zero_apply] at this
    simp only [homeLoop, h0, if_true]
    rw [ih _ ?_]
    · rw [Function.iterate_succ_apply]
    · intro j hj
      rw [← Function.iterate_succ_apply]
      exact hcont (j + 1) (by omega)

/-! ## Integer residue helpers -/

theorem emod_add_left_emod (y j C : Int) : (y % C + j) % C = (y + j) % C := by
  conv_lhs => rw [Int.emod_def y C]
  have h : y - C * (y / C) + j = y + j + C * (-(y / C)) := by ring
  rw [h, Int.add_mul_emod_self_left]

theorem neg_one_emod_eq (C : Int) (h : 0 < C) : (-1) % C = C - 1 := by
  have h1 : ((C : Int) % C + -1) % C = (C + -1) % C := emod_add_left_emod C (-1) C
  rw [Int.emod_self, zero_add] at h1
  rw [h1]
  have h2 : C + -1 = C - 1 := by ring
  rw [h2, Int.emod_eq_of_lt (by omega) (by omega)]

/-! ## Home phase-1 characterization -/

theorem homeLoop_found_fst (cfg : BoardConfig) (cond : BoardState → Bool) (stp : Int)
    (speed : StepperSpeed_t) (k fuel : Nat) (st : BoardState) (hk : k < fuel)
    (hcont : ∀ j < k, cond ((fun b => (Step cfg b stp speed).1)^[j] st) = true)
    (hstop : cond ((fun b => (Step cfg b stp speed).1)^[k] st) = false) :
    (homeLoop cfg cond stp speed fuel st).1 =
      (fun b => (Step cfg b stp speed).1)^[k] st := by
  rw [homeLoop_found cfg cond stp speed k fuel st hk hcont hstop]

theorem homeLoop_found_snd (cfg : BoardConfig) (cond : BoardState → Bool) (stp : Int)
    (speed : StepperSpeed_t) (k fuel : Nat) (st : BoardState) (hk : k < fuel)
    (hcont : ∀ j < k, cond ((fun b => (Step cfg b stp speed).1)^[j] st) = true)
    (hstop : cond ((fun b => (Step cfg b stp speed).1)^[k] st) = false) :
    (homeLoop cfg cond stp speed fuel st).2 = k := by
  rw [homeLoop_found cfg cond stp speed k fuel st hk hcont hstop]

theorem homeLoop_exhaust_fst (cfg : BoardConfig) (cond : BoardState → Bool) (stp : Int)
    (speed : StepperSpeed_t) (fuel : Nat) (st : BoardState)
    (hcont : ∀ j < fuel, cond ((fun b => (Step cfg b stp speed).1)^[j] st) = true) :
    (homeLoop cfg cond stp speed fuel st).1 =
      (fun b => (Step cfg b stp speed).1)^[fuel] st := by
  rw [homeLoop_exhaust cfg cond stp speed fuel st hcont]

theorem homeLoop_exhaust_snd (cfg : BoardConfig) (cond : BoardState → Bool) (stp : Int)
    (speed : StepperSpeed_t) (fuel : Nat) (st : BoardState)
    (hcont : ∀ j < fuel, cond ((fun b => (Step cfg b stp speed).1)^[j] st) = true) :
    (homeLoop cfg cond stp speed fuel st).2 = fuel := by
  rw [homeLoop_exhaust cfg cond stp speed fuel st hcont]

theorem Home_of_all_inactive (cfg : MechConfig) (isHome : Int → Bool) (st : MechState)
    (hall : ∀ k < cfg.m_StepsPerCycle.toNat + cfg.m_StepsPerHour,
      isHome (st.board.motorPos + (k : Int)) = false) :
    Home cfg isHome st =
      (StatusCode_t.StatusHomePhase1Error,
        { st with board := (fun b => (Step cfg.board b STEP_CW StepperSpeed_t.StepFast).1)^[
            cfg.m_StepsPerCycle.toNat + cfg.m_StepsPerHour] st.board }) := by
  have hcont : ∀ j < cfg.m_StepsPerCycle.toNat + cfg.m_StepsPerHour,
      (fun b => ! isHome b.motorPos)
        ((fun b => (Step cfg.board b STEP_CW StepperSpeed_t.StepFast).1)^[j] st.board) = true := by
    intro j hj
    simp only [iterate_Step_motorPos, STEP_CW, mul_one]
    rw [hall j hj]
    rfl
  simp only [Home]
  rw [homeLoop_exhaust_snd cfg.board _ STEP_CW StepperSpeed_t.StepFast _ st.board hcont,
    homeLoop_exhaust_fst cfg.board _ STEP_CW StepperSpeed_t.StepFast _ st.board hcont]
  simp

theorem Home_ne_phase1_of_found (cfg : MechConfig) (isHome : Int → Bool) (st : MechState)
    (k : Nat) (hk : k < cfg.m_StepsPerCycle.toNat + cfg.m_StepsPerHour)
    (hmin : ∀ j < k, isHome (st.board.motorPos + (j : Int)) = false)
    (hact : isHome (st.board.motorPos + (k : Int)) = true) :
    (Home cfg isHome st).1 ≠ StatusCode_t.StatusHomePhase1Error := by
  have hcont : ∀ j < k,
      (fun b => ! isHome b.motorPos)
        ((fun b => (Step cfg.board b STEP_CW StepperSpeed_t.StepFast).1)^[j] st.board) = true := by
    intro j hj
    simp only [iterate_Step_motorPos, STEP_CW, mul_one]
    rw [hmin j hj]
    rfl
  have hstop :
      (fun b => ! isHome b.motorPos)
        ((fun b => (Step cfg.board b STEP_CW StepperSpeed_t.StepFast).1)^[k] st.board) = false := by
    simp only [iterate_Step_motorPos, STEP_CW, mul_one]
    rw [hact]
    rfl
  simp only [Home]
  rw [homeLoop_found_snd cfg.board _ STEP_CW StepperSpeed_t.StepFast k _ st.board hk hcont hstop]
  rw [if_neg (by omega : ¬ (cfg.m_StepsPerCycle.toNat + cfg.m_StepsPerHour ≤ k))]
  split
  · simp
  · split <;> simp

/-! ## Homing phases for a narrow interval sensor -/

theorem homePhase1_interval (cfg : BoardConfig) (a : Int) (w : Nat) (C : Int) (fuel : Nat)
    (b : BoardState) (hC : 0 < C) (hw1 : 1 ≤ w) (hfuel : C.toNat < fuel) :
    ∃ (k : Nat) (b1 : BoardState),
      homeLoop cfg (fun x => ! intervalSensor a w C x.motorPos) STEP_CW
          StepperSpeed_t.StepFast fuel b = (b1, k) ∧
      k < fuel ∧ (b1.motorPos - a) % C < (w : Int) := by
  have hsenT : ∀ p : Int, (p - a) % C < (w : Int) → intervalSensor a w C p = true := by
    intro p h; simp [intervalSensor, h]
  have hsenF : ∀ p : Int, ¬ ((p - a) % C < (w : Int)) → intervalSensor a w C p = false := by
    intro p h; simp [intervalSensor, h]
  have hshift : ∀ x j : Int, (x + j - a) % C = ((x - a) % C + j) % C := by
    intro x j
    rw [emod_add_left_emod]
    congr 1
    ring
  have hrnn : 0 ≤ (b.motorPos - a) % C := Int.emod_nonneg _ (ne_of_gt hC)
  have hrlt : (b.motorPos - a) % C < C := Int.emod_lt_of_pos _ hC
  by_cases hr0w : (b.motorPos - a) % C < (w : Int)
  · refine ⟨0, b, ?_, by omega, hr0w⟩
    have hstop : (fun x => ! intervalSensor a w C x.motorPos)
        ((fun x => (Step cfg x STEP_CW StepperSpeed_t.StepFast).1)^[0] b) = false := by
      rw [Function.iterate_zero_apply]
      show (! intervalSensor a w C b.motorPos) = false
      rw [hsenT b.motorPos hr0w]
      rfl
    have hfound := homeLoop_found cfg (fun x => ! intervalSensor a w C x.motorPos) STEP_CW
      StepperSpeed_t.StepFast 0 fuel b (by omega) (fun j hj => absurd hj (Nat.not_lt_zero j))
      hstop
    rw [hfound, Function.iterate_zero_apply]
  · set r := (b.motorPos - a) % C with hrdef
    refine ⟨(C - r).toNat,
      (fun x => (Step cfg x STEP_CW StepperSpeed_t.StepFast).1)^[(C - r).toNat] b,
      ?_, by omega, ?_⟩
    · apply homeLoop_found cfg _ STEP_CW StepperSpeed_t.StepFast _ fuel b (by omega)
      · intro j hj
        have hres : (b.motorPos + (j : Int) - a) % C = r + (j : Int) := by
          rw [hshift, ← hrdef, Int.emod_eq_of_lt (by omega) (by omega)]
        have hfalse : intervalSensor a w C (b.motorPos + (j : Int)) = false := by
          apply hsenF
          rw [hres]
          omega
        simp only [iterate_Step_motorPos, STEP_CW, mul_one]
        rw [hfalse]
        rfl
      · have hres : (b.motorPos + (((C - r).toNat : Nat) : Int) - a) % C = 0 := by
          rw [hshift, ← hrdef, Int.toNat_of_nonneg (by omega)]
          have he : r + (C - r) = C := by ring
          rw [he, Int.emod_self]
        have htrue : intervalSensor a w C
            (b.motorPos + (((C - r).toNat : Nat) : Int)) = true := by
          apply hsenT
          rw [hres]
          omega
        simp only [iterate_Step_motorPos, STEP_CW, mul_one]
        rw [htrue]
        rfl
    · rw [iterate_Step_motorPos]
      simp only [STEP_CW, mul_one]
      rw [hshift, ← hrdef, Int.toNat_of_nonneg (by omega)]
      have he : r + (C - r) = C := by ring
      rw [he, Int.emod_self]
      omega

theorem homePhase2_interval (cfg : BoardConfig) (a : Int) (w : Nat) (C : Int) (fuel : Nat)
    (b : BoardState) (hC : 0 < C) (hwC : (w : Int) < C)
    (hres : (b.motorPos - a) % C < (w : Int)) (hfuel : w < fuel) :
    ∃ (k : Nat) (b2 : BoardState),
      homeLoop cfg (fun x => intervalSensor a w C x.motorPos) STEP_CCW
          StepperSpeed_t.StepFast fuel b = (b2, k) ∧
      k < fuel ∧ (b2.motorPos - a) % C = C - 1 := by
  have hsenT : ∀ p : Int, (p - a) % C < (w : Int) → intervalSensor a w C p = true := by
    intro p h; simp [intervalSensor, h]
  have hsenF : ∀ p : Int, ¬ ((p - a) % C < (w : Int)) → intervalSensor a w C p = false := by
    intro p h; simp [intervalSensor, h]
  have hshift : ∀ x j : Int, (x + j - a) % C = ((x - a) % C + j) % C := by
    intro x j
    rw [emod_add_left_emod]
    congr 1
    ring
  have hrnn : 0 ≤ (b.motorPos - a) % C := Int.emod_nonneg _ (ne_of_gt hC)
  set r := (b.motorPos - a) % C with hrdef
  have hk : ((r.toNat + 1 : Nat) : Int) = r + 1 := by
    push_cast
    rw [Int.toNat_of_nonneg hrnn]
  have hstopres : (b.motorPos + ((r.toNat + 1 : Nat) : Int) * (-1) - a) % C = C - 1 := by
    have he : b.motorPos + ((r.toNat + 1 : Nat) : Int) * (-1) - a =
        b.motorPos + -((r.toNat + 1 : Nat) : Int) - a := by ring
    rw [he, hshift, ← hrdef, hk]
    have he3 : r + -(r + 1) = -1 := by ring
    rw [he3]
    exact neg_one_emod_eq C hC
  refine ⟨r.toNat + 1,
    (fun x => (Step cfg x STEP_CCW StepperSpeed_t.StepFast).1)^[r.toNat + 1] b,
    ?_, by omega, ?_⟩
  · apply homeLoop_found cfg _ STEP_CCW StepperSpeed_t.StepFast _ fuel b (by omega)
    · intro j hj
      have hjle : (j : Int) ≤ r := by omega
      have hres2 : (b.motorPos + (j : Int) * (-1) - a) % C = r - (j : Int) := by
        have he : b.motorPos + (j : Int) * (-1) - a = b.motorPos + -(j : Int) - a := by ring
        rw [he, hshift, ← hrdef]
        have he2 : r + -(j : Int) = r - (j : Int) := by ring
        rw [he2, Int.emod_eq_of_lt (by omega) (by omega)]
      have htrue : intervalSensor a w C (b.motorPos + (j : Int) * (-1)) = true := by
        apply hsenT
        rw [hres2]
        omega
      simp only [iterate_Step_motorPos, STEP_CCW]
      rw [htrue]
    · have hfalse : intervalSensor a w C
          (b.motorPos + ((r.toNat + 1 : Nat) : Int) * (-1)) = false := by
        apply hsenF
        rw [hstopres]
        omega
      simp only [iterate_Step_motorPos, STEP_CCW]
      rw [hfalse]
  · rw [iterate_Step_motorPos]
    simp only [STEP_CCW]
    exact hstopres

theorem homePhase3_interval (cfg : BoardConfig) (a : Int) (w : Nat) (C : Int) (fuel : Nat)
    (b : BoardState) (hC : 0 < C) (hw1 : 1 ≤ w) (hwC : (w : Int) < C)
    (hres : (b.motorPos - a) % C = C - 1) (hfuel : 1 < fuel) :
    ∃ b3 : BoardState,
      homeLoop cfg (fun x => ! intervalSensor a w C x.motorPos) STEP_CW
          StepperSpeed_t.StepSlow fuel b = (b3, 1) := by
  have hsenT : ∀ p : Int, (p - a) % C < (w : Int) → intervalSensor a w C p = true := by
    intro p h; simp [intervalSensor, h]
  have hsenF : ∀ p : Int, ¬ ((p - a) % C < (w : Int)) → intervalSensor a w C p = false := by
    intro p h; simp [intervalSensor, h]
  have hshift : ∀ x j : Int, (x + j - a) % C = ((x - a) % C + j) % C := by
    intro x j
    rw [emod_add_left_emod]
    congr 1
    ring
  refine ⟨(fun x => (Step cfg x STEP_CW StepperSpeed_t.StepSlow).1)^[1] b, ?_⟩
  apply homeLoop_found cfg _ STEP_CW StepperSpeed_t.StepSlow 1 fuel b (by omega)
  · intro j hj
    have hj0 : j = 0 := by omega
    subst hj0
    rw [Function.iterate_zero_apply]
    have hfalse : intervalSensor a w C b.motorPos = false := by
      apply hsenF
      rw [hres]
      omega
    show (! intervalSensor a w C b.motorPos) = true
    rw [hfalse]
    rfl
  · have hres1 : (b.motorPos + (1 : Int) - a) % C = 0 := by
      rw [hshift, hres]
      have he : C - 1 + (1 : Int) = C := by ring
      rw [he, Int.emod_self]
    have htrue : intervalSensor a w C (b.motorPos + (1 : Int)) = true := by
      apply hsenT
      rw [hres1]
      omega
    simp only [iterate_Step_motorPos, STEP_CW, mul_one, Nat.cast_one]
    rw [htrue]
    rfl

theorem Home_intervalSensor_eq (cfg : MechConfig) (a : Int) (w : Nat) (st : MechState)
    (hC : 0 < cfg.m_StepsPerCycle) (hw1 : 1 ≤ w) (hwH : w < cfg.m_StepsPerHour)
    (hwC : (w : Int) < cfg.m_StepsPerCycle) :
    ∃ b3 : BoardState,
      Home cfg (intervalSensor a w cfg.m_StepsPerCycle) st =
        (StatusCode_t.StatusSuccess,
          { board := b3, m_LastStepperPos := 0, m_LastMinutes := 0 }) := by
  obtain ⟨k1, b1, hA, hk1, hb1res⟩ :=
    homePhase1_interval cfg.board a w cfg.m_StepsPerCycle
      (cfg.m_StepsPerCycle.toNat + cfg.m_StepsPerHour) st.board hC hw1 (by omega)
  obtain ⟨k2, b2, hB, hk2, hb2res⟩ :=
    homePhase2_interval cfg.board a w cfg.m_StepsPerCycle cfg.m_StepsPerHour b1 hC hwC hb1res
      hwH
  obtain ⟨b3, hD⟩ :=
    homePhase3_interval cfg.board a w cfg.m_StepsPerCycle cfg.m_StepsPerHour b2 hC hw1 hwC
      hb2res (by omega)
  refine ⟨b3, ?_⟩
  simp only [Home]
  rw [hA]
  dsimp only
  rw [if_neg (by omega : ¬ (cfg.m_StepsPerCycle.toNat + cfg.m_StepsPerHour ≤ k1))]
  rw [hB]
  dsimp only
  rw [if_neg (by omega : ¬ (cfg.m_StepsPerHour ≤ k2))]
  rw [hD]
  dsimp only
  rw [if_neg (by omega : ¬ (cfg.m_StepsPerHour ≤ 1))]

/-! ## Bit-level helper -/

theorem land_compl32_land_self (x m : Nat) (hm : m < 2 ^ 32) :
    x &&& compl32 m &&& m = 0 := by
  apply Nat.eq_of_testBit_eq
  intro i
  simp only [Nat.testBit_land, compl32, Nat.testBit_xor, Nat.mod_eq_of_lt hm,
    Nat.zero_testBit]
  by_cases hmi : m.testBit i
  · have hi : i < 32 := by
      by_contra hge
      have : m < 2 ^ i := lt_of_lt_of_le hm (Nat.pow_le_pow_right (by omega) (by omega))
      rw [Nat.testBit_lt_two_pow this] at hmi
      exact Bool.noConfusion hmi
    rw [hmi, Nat.testBit_two_pow_sub_one]
    simp [hi]
  · rw [Bool.not_eq_true] at hmi
    rw [hmi]
    simp

/-! ## Claim theorems -/

/-- **C4**: `Home()` returns `StatusHomePhase1Error` exactly when the home
sensor never reads active at any of the positions checked during phase 1's
budget of `steps_per_cycle + steps_per_hour` clockwise Fast steps (the sensor
is checked once per loop iteration, before each step); moreover the error is
only returned after the whole budget has been spent: on the error path the
rotor has moved clockwise by exactly the budget. -/
theorem Home_phase1_error_iff (cfg : MechConfig) (isHome : Int → Bool) (st : MechState) :
    ((Home cfg isHome st).1 = StatusCode_t.StatusHomePhase1Error ↔
      ∀ k < cfg.m_StepsPerCycle.toNat + cfg.m_StepsPerHour,
        isHome (st.board.motorPos + (k : Int)) = false) ∧
    ((Home cfg isHome st).1 = StatusCode_t.StatusHomePhase1Error →
      (Home cfg isHome st).2.board.motorPos =
        st.board.motorPos + ((cfg.m_StepsPerCycle.toNat + cfg.m_StepsPerHour : Nat) : Int)) := by
  have hmpr : (∀ k < cfg.m_StepsPerCycle.toNat + cfg.m_StepsPerHour,
      isHome (st.board.motorPos + (k : Int)) = false) →
      Home cfg isHome st = (StatusCode_t.StatusHomePhase1Error,
        { st with board := (fun b => (Step cfg.board b STEP_CW StepperSpeed_t.StepFast).1)^[
            cfg.m_StepsPerCycle.toNat + cfg.m_StepsPerHour] st.board }) :=
    Home_of_all_inactive cfg isHome st
  have hmp : (Home cfg isHome st).1 = StatusCode_t.StatusHomePhase1Error →
      ∀ k < cfg.m_StepsPerCycle.toNat + cfg.m_StepsPerHour,
        isHome (st.board.motorPos + (k : Int)) = false := by
    intro herr
    by_contra hex
    push_neg at hex
    obtain ⟨k, hk, hkact⟩ := hex
    have hkact' : isHome (st.board.motorPos + (k : Int)) = true := by
      cases hb : isHome (st.board.motorPos + (k : Int))
      · exact absurd hb hkact
      · rfl
    have hexists : ∃ n : Nat, isHome (st.board.motorPos + (n : Int)) = true := ⟨k, hkact'⟩
    have hk0act := Nat.find_spec hexists
    have hk0min : ∀ j < Nat.find hexists, isHome (st.board.motorPos + (j : Int)) = false := by
      intro j hj
      have hne := Nat.find_min hexists hj
      cases hb : isHome (st.board.motorPos + (j : Int))
      · rfl
      · exact absurd hb hne
    have hk0le : Nat.find hexists ≤ k := Nat.find_min' hexists hkact'
    exact Home_ne_phase1_of_found cfg isHome st (Nat.find hexists) (by omega) hk0min hk0act
      herr
  refine ⟨⟨hmp, fun hall => by rw [hmpr hall]⟩, fun herr => ?_⟩
  rw [hmpr (hmp herr)]
  show ((fun b => (Step cfg.board b STEP_CW StepperSpeed_t.StepFast).1)^[
      cfg.m_StepsPerCycle.toNat + cfg.m_StepsPerHour] st.board).motorPos = _
  rw [iterate_Step_motorPos]
  simp [STEP_CW]

/-- Witness for `Home_phase1_error_iff`: a sensor that is never active makes
`Home` fail with the phase-1 error. -/
theorem Home_phase1_error_iff_witness :
    (Home smallCfg (fun _ => false) smallSt).1 = StatusCode_t.StatusHomePhase1Error :=
  (Home_phase1_error_iff smallCfg (fun _ => false) smallSt).1.mpr (by decide)

/-- **C10**: on every failure return of `Home` (phase 1, 2 or 3 error) the
stored position state `m_LastStepperPos` / `m_LastMinutes` is exactly what it
was on entry; the fields are reset to zero only on the success path. -/
theorem Home_failure_preserves_position_state (cfg : MechConfig) (isHome : Int → Bool)
    (st : MechState) :
    ((Home cfg isHome st).1 ≠ StatusCode_t.StatusSuccess →
      (Home cfg isHome st).2.m_LastStepperPos = st.m_LastStepperPos ∧
      (Home cfg isHome st).2.m_LastMinutes = st.m_LastMinutes) ∧
    ((Home cfg isHome st).1 = StatusCode_t.StatusSuccess →
      (Home cfg isHome st).2.m_LastStepperPos = 0 ∧
      (Home cfg isHome st).2.m_LastMinutes = 0) := by
  simp only [Home]
  split
  · simp
  · split
    · simp
    · split <;> simp

/-- Witness for `Home_failure_preserves_position_state`: with a never-active
sensor, `Home` fails and the nonzero entry values 7 and 5 survive. -/
theorem Home_failure_preserves_position_state_witness :
    (Home smallCfg (fun _ => false) smallSt).1 ≠ StatusCode_t.StatusSuccess ∧
    (Home smallCfg (fun _ => false) smallSt).2.m_LastStepperPos = smallSt.m_LastStepperPos ∧
    (Home smallCfg (fun _ => false) smallSt).2.m_LastMinutes = smallSt.m_LastMinutes :=
  ⟨by decide,
    (Home_failure_preserves_position_state smallCfg (fun _ => false) smallSt).1 (by decide)⟩

/-- **C3** counterexample: the claim as stated quantifies over every sensor
model whose active range is reachable within the phase-1 budget.  A sensor
active over the whole cycle (active range = the entire ring, reachable at
step 0) is such a model, yet `Home` ends in the phase-2 error, not success:
the backoff loop can never leave the active zone. -/
theorem Home_full_width_sensor_fails :
    (Home smallCfg (intervalSensor 0 4 smallCfg.m_StepsPerCycle) smallSt).1 =
      StatusCode_t.StatusHomePhase2Error := by decide

/-- **C3** (amended): for every starting state (any phase index, any physical
position, any stored position fields) and every home-sensor model that is
active exactly on a contiguous arc of `w` steps repeating each cycle — where
additionally `1 ≤ w`, the arc is narrower than one hour of steps
(`w < steps_per_hour`, so phase 2 can clear it) and narrower than the cycle —
`Home()` terminates with `StatusSuccess` and afterwards
`m_LastStepperPos = 0` and `m_LastMinutes = 0`. -/
theorem Home_interval_sensor_homes (cfg : MechConfig) (a : Int) (w : Nat) (st : MechState)
    (hC : 0 < cfg.m_StepsPerCycle) (hw1 : 1 ≤ w) (hwH : w < cfg.m_StepsPerHour)
    (hwC : (w : Int) < cfg.m_StepsPerCycle) :
    (Home cfg (intervalSensor a w cfg.m_StepsPerCycle) st).1 = StatusCode_t.StatusSuccess ∧
    (Home cfg (intervalSensor a w cfg.m_StepsPerCycle) st).2.m_LastStepperPos = 0 ∧
    (Home cfg (intervalSensor a w cfg.m_StepsPerCycle) st).2.m_LastMinutes = 0 := by
  obtain ⟨b3, h⟩ := Home_intervalSensor_eq cfg a w st hC hw1 hwH hwC
  rw [h]
  exact ⟨rfl, rfl, rfl⟩

/-- Witness for `Home_interval_sensor_homes`: cycle 10, hour budget 4, sensor
arc of width 2 at offset 3, starting from phase index 5 and position -7. -/
theorem Home_interval_sensor_homes_witness :
    0 < calCfg.m_StepsPerCycle ∧ 1 ≤ 2 ∧ 2 < calCfg.m_StepsPerHour ∧
    ((2 : Nat) : Int) < calCfg.m_StepsPerCycle ∧
    (Home calCfg (intervalSensor 3 2 calCfg.m_StepsPerCycle) calSt).1 =
      StatusCode_t.StatusSuccess ∧
    (Home calCfg (intervalSensor 3 2 calCfg.m_StepsPerCycle) calSt).2.m_LastStepperPos = 0 ∧
    (Home calCfg (intervalSensor 3 2 calCfg.m_StepsPerCycle) calSt).2.m_LastMinutes = 0 :=
  ⟨by decide, by decide, by decide, by decide,
    Home_interval_sensor_homes calCfg 3 2 calSt (by decide) (by decide) (by decide) (by decide)⟩

/-- **C5**: for a nonzero move of `n = |steps|` steps, iteration `j` of
`Step(steps, StepAuto)` delays by the rapid per-step delay times one plus the
number of satisfied conditions among `j<20`, `j<10`, `j<5`, `n-j<20`,
`n-j<10`, `n-j<5`. -/
theorem Step_auto_delay_profile (cfg : BoardConfig) (st : BoardState) (steps : Int) (j : Nat)
    (hs : steps ≠ 0) (hj : j < steps.natAbs) :
    (Step cfg st steps StepperSpeed_t.StepAuto).2.getD j 0 =
      cfg.m_StepperRapidDelayUs *
        (1 + ((if j < 20 then 1 else 0) + (if j < 10 then 1 else 0) +
          (if j < 5 then 1 else 0) + (if steps.natAbs - j < 20 then 1 else 0) +
          (if steps.natAbs - j < 10 then 1 else 0) +
          (if steps.natAbs - j < 5 then 1 else 0))) := by
  simp only [Step, if_neg hs]
  rw [stepLoop_snd_getD cfg StepperSpeed_t.StepAuto _ _ _ steps.natAbs j 0 st hj]
  simp [stepDelayUs]
  split_ifs <;> ring

/-- Witness for `Step_auto_delay_profile`: a 30-step move at iteration 3. -/
theorem Step_auto_delay_profile_witness :
    (30 : Int) ≠ 0 ∧ 3 < (30 : Int).natAbs ∧
    (Step sampleBoard (initBoardState 0) 30 StepperSpeed_t.StepAuto).2.getD 3 0 =
      sampleBoard.m_StepperRapidDelayUs *
        (1 + ((if 3 < 20 then 1 else 0) + (if 3 < 10 then 1 else 0) +
          (if 3 < 5 then 1 else 0) + (if (30 : Int).natAbs - 3 < 20 then 1 else 0) +
          (if (30 : Int).natAbs - 3 < 10 then 1 else 0) +
          (if (30 : Int).natAbs - 3 < 5 then 1 else 0))) :=
  ⟨by decide, by decide,
    Step_auto_delay_profile sampleBoard (initBoardState 0) 30 3 (by decide) (by decide)⟩

/-- **C6**: for every nonzero `steps`, `Step(steps, speed)` performs exactly
`|steps|` iterations (one recorded delay per iteration), and the phase index
evolves by iterating the single-step update `p ↦ (p + delta) % phases`
`|steps|` times, where `delta` is 1 for positive `steps` and `phases - 1` for
negative `steps`: only the sign selects the direction and only the magnitude
selects the iteration count. -/
theorem Step_direction_and_count (cfg : BoardConfig) (st : BoardState) (steps : Int)
    (speed : StepperSpeed_t) (hs : steps ≠ 0) :
    (Step cfg st steps speed).2.length = steps.natAbs ∧
    (Step cfg st steps speed).1.m_CurrentStepperPhase =
      (phaseStep cfg.m_NumStepperPhases
          (if 0 < steps then 1 else cfg.m_NumStepperPhases - 1))^[steps.natAbs]
        st.m_CurrentStepperPhase := by
  constructor
  · simp only [Step, if_neg hs]
    rw [stepLoop_snd_length]
  · simp only [Step, if_neg hs]
    rw [stepLoop_fst_phase]

/-- Witness for `Step_direction_and_count`: a backward 3-step move on the
8-phase board. -/
theorem Step_direction_and_count_witness :
    (-3 : Int) ≠ 0 ∧
    (Step sampleBoard (initBoardState 0) (-3) StepperSpeed_t.StepFast).2.length =
      (-3 : Int).natAbs ∧
    (Step sampleBoard (initBoardState 0) (-3)
        StepperSpeed_t.StepFast).1.m_CurrentStepperPhase =
      (phaseStep sampleBoard.m_NumStepperPhases
          (if 0 < (-3 : Int) then 1 else sampleBoard.m_NumStepperPhases - 1))^[
        (-3 : Int).natAbs] (initBoardState 0).m_CurrentStepperPhase :=
  ⟨by decide,
    Step_direction_and_count sampleBoard (initBoardState 0) (-3) StepperSpeed_t.StepFast
      (by decide)⟩

/-- **C7**: for any configured phase count (the repository builds 4 or 8) and
every speed selector, `Step(0, speed)` records no iteration, leaves the phase
index, the rotor and the non-stepper output bits unchanged, and deasserts all
stepper phase output bits. -/
theorem Step_zero_is_noop (cfg : BoardConfig) (st : BoardState) (speed : StepperSpeed_t)
    (hph : cfg.m_NumStepperPhases = 4 ∨ cfg.m_NumStepperPhases = 8)
    (hmask : cfg.m_StepperClearMask < 2 ^ 32) :
    (Step cfg st 0 speed).2 = [] ∧
    (Step cfg st 0 speed).1.m_CurrentStepperPhase = st.m_CurrentStepperPhase ∧
    (Step cfg st 0 speed).1.motorPos = st.motorPos ∧
    (Step cfg st 0 speed).1.gpioOut &&& cfg.m_StepperClearMask = 0 ∧
    (Step cfg st 0 speed).1.gpioOut = st.gpioOut &&& compl32 cfg.m_StepperClearMask := by
  refine ⟨rfl, rfl, rfl, ?_, rfl⟩
  show (st.gpioOut &&& compl32 cfg.m_StepperClearMask) &&& cfg.m_StepperClearMask = 0
  exact land_compl32_land_self st.gpioOut cfg.m_StepperClearMask hmask

/-- Witness for `Step_zero_is_noop` on the 4-phase (full-stepping) board with
stray output bits set. -/
theorem Step_zero_is_noop_witness :
    (sampleBoardFull.m_NumStepperPhases = 4 ∨ sampleBoardFull.m_NumStepperPhases = 8) ∧
    sampleBoardFull.m_StepperClearMask < 2 ^ 32 ∧
    (Step sampleBoardFull straySt 0 StepperSpeed_t.StepSlow).2 = [] ∧
    (Step sampleBoardFull straySt 0 StepperSpeed_t.StepSlow).1.m_CurrentStepperPhase = 3 ∧
    (Step sampleBoardFull straySt 0 StepperSpeed_t.StepSlow).1.gpioOut &&&
      sampleBoardFull.m_StepperClearMask = 0 :=
  ⟨by decide, by decide,
    (Step_zero_is_noop sampleBoardFull straySt StepperSpeed_t.StepSlow (by decide)
      (by decide)).1,
    (Step_zero_is_noop sampleBoardFull straySt StepperSpeed_t.StepSlow (by decide)
      (by decide)).2.1,
    (Step_zero_is_noop sampleBoardFull straySt StepperSpeed_t.StepSlow (by decide)
      (by decide)).2.2.2.1⟩

/-- **C8**: for every integer `n` and every starting phase index in range,
`Step(n, StepFast)` followed by `Step(-n, StepFast)` returns the phase index
to its starting value. -/
theorem Step_fast_reversible (cfg : BoardConfig) (st : BoardState) (n : Int)
    (hp : st.m_CurrentStepperPhase < cfg.m_NumStepperPhases) :
    (Step cfg (Step cfg st n StepperSpeed_t.StepFast).1 (-n)
        StepperSpeed_t.StepFast).1.m_CurrentStepperPhase = st.m_CurrentStepperPhase := by
  have hm : 0 < cfg.m_NumStepperPhases := lt_of_le_of_lt (Nat.zero_le _) hp
  by_cases h0 : n = 0
  · subst h0
    simp [Step]
  · have hneg : -n ≠ 0 := neg_ne_zero.mpr h0
    rw [Step_fst_phase cfg _ (-n) StepperSpeed_t.StepFast hneg,
      Step_fst_phase cfg st n StepperSpeed_t.StepFast h0, Int.natAbs_neg]
    rcases lt_or_gt_of_ne h0 with hlt | hgt
    · rw [if_neg (by omega : ¬ (0 : Int) < n), if_pos (by omega : (0 : Int) < -n)]
      rw [Nat.mod_add_mod, Nat.add_assoc, ← Nat.mul_add, Nat.sub_add_cancel hm,
        Nat.add_mul_mod_self_right, Nat.mod_eq_of_lt hp]
    · rw [if_pos hgt, if_neg (by omega : ¬ (0 : Int) < -n)]
      rw [Nat.mod_add_mod, Nat.add_assoc, ← Nat.mul_add, Nat.add_sub_cancel' hm,
        Nat.add_mul_mod_self_right, Nat.mod_eq_of_lt hp]

/-- Witness for `Step_fast_reversible`: 5 steps forward then 5 back from
phase index 3 on the 8-phase board. -/
theorem Step_fast_reversible_witness :
    phase3St.m_CurrentStepperPhase < sampleBoard.m_NumStepperPhases ∧
    (Step sampleBoard (Step sampleBoard phase3St 5 StepperSpeed_t.StepFast).1 (-5)
        StepperSpeed_t.StepFast).1.m_CurrentStepperPhase = 3 :=
  ⟨by decide, Step_fast_reversible sampleBoard phase3St 5 (by decide)⟩

/-- **C9**: with `fullStepsPerRev = 2048`, half stepping, `GEAR_RATIO = 4`,
`HOURS_PER_REV = 3`, `HOURS_PER_CYCLE = 12`: `steps_per_cycle` is the exact
integer 65536 (`65536 * 3 = 4096 * 4 * 12`, no remainder, because
`HOURS_PER_CYCLE / HOURS_PER_REV` divides exactly); the target position for
00:00 is 0 and for 06:00 exactly `steps_per_cycle / 2`; and from the
constructed state, `update(00:00)` issues no `Step` call while the following
`update(06:01)` issues exactly one, whose argument is the freshly computed
target minus 0 normalized for shortest path, namely -32677. -/
theorem constructor_and_first_update_scenario :
    byjCfg.m_StepsPerCycle = 65536 ∧
    (65536 : Int) * ((HOURS_PER_REV : Nat) : Int) =
      ((2048 * 2 * GEAR_RATIO * HOURS_PER_CYCLE : Nat) : Int) ∧
    HOURS_PER_CYCLE % HOURS_PER_REV = 0 ∧
    newMotorPosOf byjCfg 0 = 0 ∧
    newMotorPosOf byjCfg 360 = Int.tdiv byjCfg.m_StepsPerCycle 2 ∧
    Int.tdiv byjCfg.m_StepsPerCycle 2 = 32768 ∧
    byjU0.2 = none ∧
    byjU01.2 = some (normalizeDelta byjCfg (newMotorPosOf byjCfg 361 - 0)) ∧
    byjU01.2 = some (-32677) := by decide

/-- **C1** (code-bug evidence): a reachable trace on which the normalized
delta handed to `Step` far exceeds half a cycle.  With the repository's
28BYJ-48 configuration (`steps_per_cycle = 65536`), after a successful `Home`
the updates 06:01, 00:02, 11:59 leave the stored position negative twice in a
row (C++ `%` truncates toward zero), so the third update computes
`deltaSteps = 65262 > 32768 = steps_per_cycle / 2` and passes it to `Step`:
the indicator travels almost a full cycle instead of the equivalent -274. -/
theorem updateClock_trace_exceeds_half_cycle :
    (Home byjCfg byjSensor byjSt0).1 = StatusCode_t.StatusSuccess ∧
    byjU1.2 = some (-32677) ∧
    byjU2.2 = some (-32677) ∧
    byjU3.2 = some 65262 ∧
    Int.tdiv byjCfg.m_StepsPerCycle 2 = 32768 ∧
    ¬ ((65262 : Int).natAbs ≤ (32768 : Int).natAbs) := by decide

/-- **C2** (code-bug evidence): a single update after a successful `Home`
stores a negative `m_LastStepperPos`.  The C++ statement
`m_LastStepperPos = (m_LastStepperPos + deltaSteps) % m_StepsPerCycle`
uses truncated (C++) `%`, so the wrapped-backward move for 06:01 stores
-32677, outside the documented range `0 .. steps_per_cycle - 1`. -/
theorem updateClock_stores_negative_position :
    (Home byjCfg byjSensor byjSt0).1 = StatusCode_t.StatusSuccess ∧
    byjHomed.m_LastStepperPos = 0 ∧ byjHomed.m_LastMinutes = 0 ∧
    byjU1.1.m_LastStepperPos = -32677 ∧
    ¬ ((0 : Int) ≤ -32677) := by decide

end GenevaClock
